import Mathlib

/-!
# Verification of the sonicatari composition playback and export engine

Shallow embedding of the repository's data model (src/types.ts) and of the
application-level control flow (src/App.tsx), together with the engine
components (TimeModel, Analyser, Transport/load, WavEncoder) that the
application calls.  Components whose implementation files are not part of
the visible sources are modelled from the specification; each such
definition carries a doc comment starting with `Modelled from the spec:`.
Numbers are embedded as rationals, byte streams as lists of naturals.
-/

namespace Sonicatari

/-! ## Data model (src/types.ts) -/

/-- NoteEvent from src/types.ts: note name, duration token, position token,
velocity in [0,1]. -/
structure NoteEvent where
  note : String
  duration : String
  time : String
  velocity : ℚ
deriving Repr, DecidableEq

/-- The closed instrument union of src/types.ts:
`instrument: 'synth' | 'bass' | 'drums' | 'pad'`. -/
inductive Instrument
  | synth
  | bass
  | drums
  | pad
deriving Repr, DecidableEq

/-- Dynamic acceptance of an instrument-name string into the closed union of
src/types.ts line 10.  Exactly the four literal strings of the TypeScript
union type are accepted. -/
def parseInstrument (s : String) : Option Instrument :=
  if s = "synth" then some .synth
  else if s = "bass" then some .bass
  else if s = "drums" then some .drums
  else if s = "pad" then some .pad
  else none

/-- TrackData from src/types.ts. -/
structure TrackData where
  name : String
  instrument : Instrument
  notes : List NoteEvent
  color : String
deriving Repr, DecidableEq

/-- Composition from src/types.ts. -/
structure Composition where
  title : String
  bpm : ℚ
  scale : String
  mood : String
  tracks : List TrackData
  description : String
deriving Repr, DecidableEq

/-- GenerationState from src/types.ts. -/
inductive GenerationState
  | IDLE
  | THINKING
  | COMPOSING
  | READY
  | ERROR
deriving Repr, DecidableEq

/-! ## C1 theorems -/

/-- C1 counterexample: the claim says every accepted instrument kind is one of
lead, bass, percussion, pad.  The code (src/types.ts line 10) accepts the
string "synth", which is not in that set, and rejects "lead". -/
theorem instrument_claimed_names_fail :
    (parseInstrument "synth").isSome = true ∧
    "synth" ∉ (["lead", "bass", "percussion", "pad"] : List String) ∧
    parseInstrument "lead" = none := by
  refine ⟨rfl, by decide, rfl⟩

/-- C1 (amended): the instrument kind is drawn from a closed,
exhaustively-matched set of exactly four variants, named synth, bass, drums,
pad in the code: a string is accepted iff it is one of those four, and every
value of the variant type is one of the four constructors. -/
theorem instrument_union_closed :
    (∀ s : String, (parseInstrument s).isSome = true ↔
      (s = "synth" ∨ s = "bass" ∨ s = "drums" ∨ s = "pad")) ∧
    (∀ i : Instrument,
      i = .synth ∨ i = .bass ∨ i = .drums ∨ i = .pad) := by
  constructor
  · intro s
    unfold parseInstrument
    split_ifs with h1 h2 h3 h4 <;> simp_all
  · intro i
    cases i <;> simp

/-! ## TimeModel (modelled from the spec, section 4.1) -/

/-- Accumulator pass of a decimal-digit scanner over a character list:
fails on any non-digit character. -/
def parseDigitsAux : List Char → ℕ → Option ℕ
  | [], acc => some acc
  | c :: cs, acc =>
    if c.isDigit then parseDigitsAux cs (10 * acc + (c.toNat - 48)) else none

/-- Parse a non-empty all-digit character list as a natural number. -/
def parseNatToken (l : List Char) : Option ℕ :=
  match l with
  | [] => none
  | _ :: _ => parseDigitsAux l 0

/-- Split a character list on a separator character; always returns at least
one (possibly empty) cell. -/
def splitOnSep (sep : Char) : List Char → List (List Char)
  | [] => [[]]
  | c :: cs =>
    let r := splitOnSep sep cs
    if c = sep then [] :: r
    else
      match r with
      | [] => [[c]]
      | h :: t => (c :: h) :: t

/-- Modelled from the spec: the TimeModel position grammar, a token of the
form bar:beat:sixteenth where each component is a non-negative integer. -/
def parsePosition (s : String) : Option (ℕ × ℕ × ℕ) :=
  match (splitOnSep ':' s.data).map parseNatToken with
  | [some bar, some beat, some sixteenth] => some (bar, beat, sixteenth)
  | _ => none

/-- A parsed duration token: Nn is a 1/N-note, Nm is N full measures. -/
inductive DurToken
  | note (n : ℕ)
  | measure (n : ℕ)
deriving Repr, DecidableEq

/-- Modelled from the spec: the TimeModel duration grammar, digits followed by
the suffix n or m, with a non-positive N rejected as malformed. -/
def parseDurationTok (s : String) : Option DurToken :=
  match s.data.getLast? with
  | some c =>
    if c = 'n' then
      (parseNatToken s.data.dropLast).bind
        (fun n => if 0 < n then some (.note n) else none)
    else if c = 'm' then
      (parseNatToken s.data.dropLast).bind
        (fun n => if 0 < n then some (.measure n) else none)
    else none
  | none => none

/-- Modelled from the spec: beatDuration = 60 / tempo. -/
def beatDuration (tempo : ℚ) : ℚ := 60 / tempo

/-- Modelled from the spec: seconds of a parsed bar:beat:sixteenth position,
seconds = bar*4*beatDuration + beat*beatDuration + sixteenth*(beatDuration/4). -/
def positionSeconds (tempo : ℚ) : ℕ × ℕ × ℕ → ℚ
  | (bar, beat, sixteenth) =>
    bar * 4 * beatDuration tempo + beat * beatDuration tempo +
      sixteenth * (beatDuration tempo / 4)

/-- Modelled from the spec: TimeModel conversion of a position token string to
absolute seconds at a given tempo. -/
def timeToSeconds (s : String) (tempo : ℚ) : Option ℚ :=
  (parsePosition s).map (positionSeconds tempo)

/-- Modelled from the spec: seconds of a parsed duration token,
Nn yields 4*beatDuration/N and Nm yields N*4*beatDuration. -/
def durTokenSeconds (tempo : ℚ) : DurToken → ℚ
  | .note n => 4 * beatDuration tempo / n
  | .measure n => n * (4 * beatDuration tempo)

/-- Modelled from the spec: TimeModel conversion of a duration token string to
seconds at a given tempo. -/
def durationToSeconds (s : String) (tempo : ℚ) : Option ℚ :=
  (parseDurationTok s).map (durTokenSeconds tempo)

/-! ## C8 theorems -/

/-- Duration parsing only produces positive N. -/
theorem parseDurationTok_pos (s : String) (d : DurToken)
    (h : parseDurationTok s = some d) :
    (∀ n, d = .note n → 0 < n) ∧ (∀ n, d = .measure n → 0 < n) := by
  unfold parseDurationTok at h
  rcases hl : s.data.getLast? with _ | c <;> rw [hl] at h <;> dsimp only at h
  · exact absurd h (by simp)
  · split_ifs at h with h1 h2
    · rcases hp : parseNatToken s.data.dropLast with _ | n <;> rw [hp] at h
      · exact Option.noConfusion h
      · rw [Option.some_bind] at h
        split_ifs at h with hn
        · cases h
          exact ⟨fun m hm => (by cases hm; exact hn), fun m hm => (by cases hm)⟩
    · rcases hp : parseNatToken s.data.dropLast with _ | n <;> rw [hp] at h
      · exact Option.noConfusion h
      · rw [Option.some_bind] at h
        split_ifs at h with hn
        · cases h
          exact ⟨fun m hm => (by cases hm), fun m hm => (by cases hm; exact hn)⟩

/-- C8: for every position token parsing as bar:beat:sixteenth and tempo > 0,
TimeModel yields bar*4*beatDuration + beat*beatDuration +
sixteenth*(beatDuration/4) seconds with beatDuration = 60/tempo; and for every
duration token, Nn yields 4*beatDuration/N and Nm yields N*4*beatDuration
seconds, N being positive whenever the token parses. -/
theorem timeModel_formulas (tempo : ℚ) (htempo : 0 < tempo) :
    (∀ (s : String) (bar beat sixteenth : ℕ),
      parsePosition s = some (bar, beat, sixteenth) →
      timeToSeconds s tempo =
        some (bar * 4 * (60 / tempo) + beat * (60 / tempo) +
          sixteenth * (60 / tempo / 4))) ∧
    (∀ (s : String) (n : ℕ), parseDurationTok s = some (.note n) →
      0 < n ∧ durationToSeconds s tempo = some (4 * (60 / tempo) / n)) ∧
    (∀ (s : String) (n : ℕ), parseDurationTok s = some (.measure n) →
      0 < n ∧ durationToSeconds s tempo = some (n * (4 * (60 / tempo)))) := by
  refine ⟨fun s bar beat sixteenth h => ?_, fun s n h => ?_, fun s n h => ?_⟩
  · unfold timeToSeconds
    rw [h]
    rfl
  · refine ⟨(parseDurationTok_pos s _ h).1 n rfl, ?_⟩
    unfold durationToSeconds
    rw [h]
    rfl
  · refine ⟨(parseDurationTok_pos s _ h).2 n rfl, ?_⟩
    unfold durationToSeconds
    rw [h]
    rfl

/-- C8 witness: the formulas evaluated at tempo 120 on the concrete tokens
"1:2:3", "8n" and "2m". -/
theorem timeModel_formulas_witness :
    (0 : ℚ) < 120 ∧
    timeToSeconds "1:2:3" 120 =
      some ((1 : ℕ) * 4 * (60 / 120) + (2 : ℕ) * (60 / 120) +
        (3 : ℕ) * ((60 : ℚ) / 120 / 4)) ∧
    durationToSeconds "8n" 120 = some (4 * ((60 : ℚ) / 120) / (8 : ℕ)) ∧
    durationToSeconds "2m" 120 = some ((2 : ℕ) * (4 * ((60 : ℚ) / 120))) :=
  ⟨by norm_num,
   (timeModel_formulas 120 (by norm_num)).1 "1:2:3" 1 2 3 (by decide),
   ((timeModel_formulas 120 (by norm_num)).2.1 "8n" 8 (by decide)).2,
   ((timeModel_formulas 120 (by norm_num)).2.2 "2m" 2 (by decide)).2⟩

/-! ## Pitch parsing and structural validation (modelled from the spec,
sections 3, 6 and 7) -/

/-- Semitone offset of a note letter within the octave. -/
def letterSemitone : Char → Option ℕ
  | 'C' => some 0
  | 'D' => some 2
  | 'E' => some 4
  | 'F' => some 5
  | 'G' => some 7
  | 'A' => some 9
  | 'B' => some 11
  | _ => none

/-- Modelled from the spec: a pitch is a symbolic note name plus octave
("C4", "F#3"); it maps to the MIDI semitone index (octave+1)*12 + offset,
with an optional sharp and an optionally negative octave. -/
def parseNoteMidi (s : String) : Option ℤ :=
  match s.data with
  | [] => none
  | c :: rest =>
    (letterSemitone c).bind fun off =>
      let sharpened :=
        match rest with
        | '#' :: r => (off + 1, r)
        | _ => (off, rest)
      let signed :=
        match sharpened.2 with
        | '-' :: r => (true, r)
        | _ => (false, sharpened.2)
      (parseNatToken signed.2).map fun oct =>
        let o : ℤ := if signed.1 then -(oct : ℤ) else (oct : ℤ)
        (o + 1) * 12 + sharpened.1

/-- The validation error taxonomy of spec section 7 that load-time structural
validation can produce. -/
inductive ValidationError
  | invalidComposition
  | malformedTimeToken (tok : String)
  | pitchOutOfRange (note : String)
deriving Repr, DecidableEq

/-- Modelled from the spec: structural validation of one NoteEvent — the
pitch must map to a semitone index in [0,127] and the startTime and duration
tokens must parse under the TimeModel grammar. -/
def validateNote (e : NoteEvent) : Option ValidationError :=
  match parseNoteMidi e.note with
  | none => some (.pitchOutOfRange e.note)
  | some m =>
    if m < 0 ∨ 127 < m then some (.pitchOutOfRange e.note)
    else
      match parsePosition e.time with
      | none => some (.malformedTimeToken e.time)
      | some _ =>
        match parseDurationTok e.duration with
        | none => some (.malformedTimeToken e.duration)
        | some _ => none

/-- Modelled from the spec: structural validation of a Composition — tempo
must be positive and every note of every track must validate; the first
offending field is reported. -/
def validateComposition (c : Composition) : Option ValidationError :=
  if c.bpm ≤ 0 then some .invalidComposition
  else (c.tracks.flatMap TrackData.notes).findSome? validateNote

/-! ## Engine state (Transport, VoiceBank observables; modelled from the
spec, sections 4.2 and 4.4) -/

/-- The Transport state machine of spec section 4.4. -/
inductive TransportState
  | stopped
  | playing
deriving Repr, DecidableEq

/-- Observable state of the audio engine: the Transport state, the loaded
Composition, dispatched schedule entries and the count of active voices. -/
structure EngineState where
  transport : TransportState
  loaded : Option Composition
  scheduled : List (ℚ × ℤ)
  voices : ℕ
deriving Repr, DecidableEq

/-- Modelled from the spec: audioEngine.stop halts the lookahead loop,
releases every voice and clears the pending schedule, leaving the Transport
STOPPED. -/
def stopEngine (e : EngineState) : EngineState :=
  { e with transport := .stopped, scheduled := [], voices := 0 }

/-- Modelled from the spec: audioEngine.play enters PLAYING and reports true
when a composition is loaded, and is a no-op reporting false otherwise. -/
def playEngine (e : EngineState) : Bool × EngineState :=
  match e.loaded with
  | none => (false, e)
  | some _ => (true, { e with transport := .playing })

/-- Modelled from the spec: audioEngine.loadComposition validates the
Composition structurally before any scheduling begins; a Composition that
fails validation is rejected with the engine state unchanged (all-or-nothing),
and a valid one replaces the loaded composition with playback cancelled. -/
def loadEngine (e : EngineState) (c : Composition) :
    EngineState × Option ValidationError :=
  match validateComposition c with
  | some err => (e, some err)
  | none =>
    ({ transport := .stopped, loaded := some c, scheduled := [], voices := 0 },
     none)

/-! ## Application state and handlers (src/App.tsx) -/

/-- The export formats offered by the app (src/App.tsx line 29). -/
inductive ExportKind
  | midi
  | wav
  | html
deriving Repr, DecidableEq

/-- The React state fields of the App component (src/App.tsx lines 20-29). -/
structure AppState where
  prompt : String
  status : GenerationState
  composition : Option Composition
  isPlaying : Bool
  error : Option String
  isExporting : Bool
  showPaywall : Bool
  pendingExport : Option ExportKind
deriving Repr, DecidableEq

/-- The whole embedded system: the App component state plus the audio engine
observables. -/
structure SystemState where
  app : AppState
  engine : EngineState
deriving Repr, DecidableEq

/-- togglePlayback from src/App.tsx lines 66-70: returns immediately when no
composition is loaded in the App state; otherwise calls audioEngine.play and
stores the reported playing flag. -/
def togglePlayback (s : SystemState) : SystemState :=
  match s.app.composition with
  | none => s
  | some _ =>
    let pe := playEngine s.engine
    { app := { s.app with isPlaying := pe.1 }, engine := pe.2 }

/-- One primitive step performed by a handler of src/App.tsx: a React state
update or a call into the audio engine. -/
inductive Action
  | initAudio
  | setStatus (g : GenerationState)
  | setError (e : Option String)
  | setComposition (c : Composition)
  | setPlaying (b : Bool)
  | engineStop
  | engineLoad (c : Composition)
  | enginePlay
deriving Repr, DecidableEq

/-- Effect of one Action on the system state.  initAudio starts the audio
context and changes none of the modelled observables. -/
def applyAction (s : SystemState) : Action → SystemState
  | .initAudio => s
  | .setStatus g => { s with app := { s.app with status := g } }
  | .setError e => { s with app := { s.app with error := e } }
  | .setComposition c => { s with app := { s.app with composition := some c } }
  | .setPlaying b => { s with app := { s.app with isPlaying := b } }
  | .engineStop => { s with engine := stopEngine s.engine }
  | .engineLoad c => { s with engine := (loadEngine s.engine c).1 }
  | .enginePlay =>
    let pe := playEngine s.engine
    { app := { s.app with isPlaying := pe.1 }, engine := pe.2 }

/-- Run a list of Actions from a state, in order. -/
def applyTrace (s : SystemState) (l : List Action) : SystemState :=
  l.foldl applyAction s

/-- The guard of handleGenerate, src/App.tsx line 40: the JavaScript test
!prompt.trim() holds exactly when every character of the prompt is
whitespace. -/
def isBlank (s : String) : Bool := s.data.all Char.isWhitespace

/-- handleGenerate from src/App.tsx lines 39-64, as the ordered list of steps
it performs.  The external generation call is a parameter: its result is
either a Composition or an error message.  An empty (after trimming) prompt
returns before any step; otherwise the handler initializes audio, enters
THINKING, clears the error, clears the playing flag and stops the engine,
then on success stores the composition, enters COMPOSING, loads the engine
(inside the 500 ms timeout) and enters READY, and on failure enters ERROR and
stores the message. -/
def handleGenerateTrace (p : String)
    (result : Except String Composition) : List Action :=
  if isBlank p then []
  else
    [.initAudio, .setStatus .THINKING, .setError none, .setPlaying false,
     .engineStop] ++
    match result with
    | .ok c => [.setComposition c, .setStatus .COMPOSING, .engineLoad c,
                .setStatus .READY]
    | .error m => [.setStatus .ERROR, .setError (some m)]

/-- Actions that reach the audio engine. -/
def isEngineAction : Action → Bool
  | .engineStop => true
  | .engineLoad _ => true
  | .enginePlay => true
  | _ => false

/-- executeExport from src/App.tsx lines 82-120: returns immediately unless a
composition is loaded and an export is pending; otherwise hides the paywall,
sets the exporting flag, runs the selected export (whose outcome — a produced
blob or a thrown error — is the parameter), on error stores the fixed error
message, and in all completed cases finally clears the exporting flag and the
pending selection.  The export operations themselves read only the
Composition and never touch the engine. -/
def executeExport (s : SystemState) (result : Except String Unit) :
    SystemState :=
  match s.app.composition, s.app.pendingExport with
  | some _, some _ =>
    let s1 : SystemState :=
      { s with app := { s.app with showPaywall := false, isExporting := true } }
    match result with
    | .ok _ =>
      { s1 with app := { s1.app with isExporting := false,
                                     pendingExport := none } }
    | .error _ =>
      { s1 with app :=
        { s1.app with error := some "Export failed. Please try again.",
                      isExporting := false, pendingExport := none } }
  | _, _ => s

/-! ## Concrete sample values used by the witnesses -/

/-- An engine with nothing loaded. -/
def emptyEngine : EngineState :=
  { transport := .stopped, loaded := none, scheduled := [], voices := 0 }

/-- A small valid composition. -/
def sampleComposition : Composition :=
  { title := "Demo", bpm := 120, scale := "A minor", mood := "sad",
    tracks := [{ name := "Keys", instrument := .synth,
                 notes := [{ note := "A4", duration := "4n",
                             time := "0:0:0", velocity := 4/5 }],
                 color := "#ff0000" }],
    description := "" }

/-- The initial App state of src/App.tsx lines 20-29 with an idle engine. -/
def initialState : SystemState :=
  { app := { prompt := "", status := .IDLE, composition := none,
             isPlaying := false, error := none, isExporting := false,
             showPaywall := false, pendingExport := none },
    engine := emptyEngine }

/-- A state ready to export: composition present and a pending MIDI export. -/
def exportReadyState : SystemState :=
  { initialState with
    app := { initialState.app with composition := some sampleComposition,
                                   pendingExport := some .midi } }

/-! ## C2, C9: guarded handlers are no-ops -/

/-- C2: when no composition is loaded, togglePlayback is a no-op — the whole
state is unchanged, so the Transport state, the active-voice count and the
playing flag are all exactly as before, and a stopped Transport stays
stopped. -/
theorem togglePlayback_noop_without_composition (s : SystemState)
    (h : s.app.composition = none) :
    togglePlayback s = s ∧
    (togglePlayback s).engine.transport = s.engine.transport ∧
    (togglePlayback s).engine.voices = s.engine.voices ∧
    (togglePlayback s).app.isPlaying = s.app.isPlaying := by
  have he : togglePlayback s = s := by
    unfold togglePlayback
    rw [h]
  exact ⟨he, by rw [he], by rw [he], by rw [he]⟩

/-- C2 witness: togglePlayback on the initial state (no composition). -/
theorem togglePlayback_noop_witness :
    initialState.app.composition = none ∧
    togglePlayback initialState = initialState :=
  ⟨rfl, (togglePlayback_noop_without_composition initialState rfl).1⟩

/-- C9: a prompt that trims to the empty string makes handleGenerate a
complete no-op — the step trace is empty and running it changes nothing: no
service call, no state field change, and playback is not stopped. -/
theorem handleGenerate_blank_prompt_noop (p : String)
    (result : Except String Composition) (s : SystemState)
    (h : isBlank p = true) :
    handleGenerateTrace p result = [] ∧
    applyTrace s (handleGenerateTrace p result) = s := by
  have ht : handleGenerateTrace p result = [] := by
    simp [handleGenerateTrace, h]
  exact ⟨ht, by rw [ht]; rfl⟩

/-- C9 witness: a whitespace-only prompt with a failing generator leaves the
initial state untouched. -/
theorem handleGenerate_blank_prompt_noop_witness :
    isBlank "  " = true ∧
    handleGenerateTrace "  " (Except.error "x") = [] ∧
    applyTrace initialState (handleGenerateTrace "  " (Except.error "x")) =
      initialState := by
  refine ⟨by decide, ?_⟩
  exact handleGenerate_blank_prompt_noop "  " (Except.error "x") initialState
    (by decide)

/-! ## C3: generation stops playback before loading -/

/-- C3: for a non-blank prompt and a successful generation, the handler's
step trace performs exactly one engine action before the engine load, namely
the stop; the Transport is STOPPED at the moment the load happens, and is
still STOPPED when the whole handler has run, so no two playback schedules
ever overlap. -/
theorem generate_stops_before_load (p : String) (c : Composition)
    (s : SystemState) (h : isBlank p = false) :
    ∃ pre post,
      handleGenerateTrace p (.ok c) = pre ++ Action.engineLoad c :: post ∧
      pre.filter isEngineAction = [Action.engineStop] ∧
      (applyTrace s pre).engine.transport = .stopped ∧
      (applyTrace s (handleGenerateTrace p (.ok c))).engine.transport =
        .stopped := by
  have ht : handleGenerateTrace p (.ok c) =
      [.initAudio, .setStatus .THINKING, .setError none, .setPlaying false,
       .engineStop, .setComposition c, .setStatus .COMPOSING,
       .engineLoad c, .setStatus .READY] := by
    simp [handleGenerateTrace, h]
  refine ⟨[.initAudio, .setStatus .THINKING, .setError none,
           .setPlaying false, .engineStop, .setComposition c,
           .setStatus .COMPOSING], [.setStatus .READY],
          by rw [ht]; rfl, rfl, rfl, ?_⟩
  rw [ht]
  show (loadEngine (stopEngine s.engine) c).1.transport = .stopped
  cases hv : validateComposition c with
  | none => simp [loadEngine, hv]
  | some err => simp [loadEngine, hv, stopEngine]

/-- C3 witness: generating "beat" successfully from the initial state. -/
theorem generate_stops_before_load_witness :
    isBlank "beat" = false ∧
    (∃ pre post,
      handleGenerateTrace "beat" (.ok sampleComposition) =
        pre ++ Action.engineLoad sampleComposition :: post ∧
      pre.filter isEngineAction = [Action.engineStop] ∧
      (applyTrace initialState pre).engine.transport = .stopped ∧
      (applyTrace initialState
        (handleGenerateTrace "beat" (.ok sampleComposition))).engine.transport
        = .stopped) :=
  ⟨by decide,
   generate_stops_before_load "beat" sampleComposition initialState
     (by decide)⟩

/-! ## C4, C10: export failure isolation and flag reset -/

/-- C4: a failed export (any kind: the outcome parameter is the thrown error)
leaves the live playback session untouched — the loaded composition, the
playing flag and the whole engine state (hence the Transport state) are
exactly as before — and only the error message is produced. -/
theorem export_failure_preserves_session (s : SystemState) (c : Composition)
    (k : ExportKind) (m : String) (hc : s.app.composition = some c)
    (hp : s.app.pendingExport = some k) :
    (executeExport s (.error m)).app.composition = s.app.composition ∧
    (executeExport s (.error m)).app.isPlaying = s.app.isPlaying ∧
    (executeExport s (.error m)).engine = s.engine ∧
    (executeExport s (.error m)).app.error =
      some "Export failed. Please try again." := by
  simp [executeExport, hc, hp]

/-- C4 witness: a failed MIDI export from the export-ready state. -/
theorem export_failure_preserves_session_witness :
    (executeExport exportReadyState (.error "boom")).app.composition =
      exportReadyState.app.composition ∧
    (executeExport exportReadyState (.error "boom")).app.isPlaying =
      exportReadyState.app.isPlaying ∧
    (executeExport exportReadyState (.error "boom")).engine =
      exportReadyState.engine ∧
    (executeExport exportReadyState (.error "boom")).app.error =
      some "Export failed. Please try again." :=
  export_failure_preserves_session exportReadyState sampleComposition .midi
    "boom" rfl rfl

/-- C10: every completed export invocation — successful or failed — leaves
the exporting flag false and the pending-export selection cleared. -/
theorem export_completion_clears_flags (s : SystemState) (c : Composition)
    (k : ExportKind) (hc : s.app.composition = some c)
    (hp : s.app.pendingExport = some k) (r : Except String Unit) :
    (executeExport s r).app.isExporting = false ∧
    (executeExport s r).app.pendingExport = none := by
  cases r <;> simp [executeExport, hc, hp]

/-- C10 witness: a successful export from the export-ready state. -/
theorem export_completion_clears_flags_witness :
    (executeExport exportReadyState (.ok ())).app.isExporting = false ∧
    (executeExport exportReadyState (.ok ())).app.pendingExport = none :=
  export_completion_clears_flags exportReadyState sampleComposition .midi
    rfl rfl (.ok ())

/-! ## C5: validation before load, all-or-nothing -/

/-- findSome? misses exactly when the function misses on every element. -/
theorem findSome?_eq_none_iff {α β : Type} (f : α → Option β) :
    ∀ l : List α, l.findSome? f = none ↔ ∀ x ∈ l, f x = none
  | [] => by simp [List.findSome?]
  | a :: l => by
    cases hfa : f a <;>
      simp [List.findSome?, hfa, findSome?_eq_none_iff f l]

/-- A NoteEvent validates exactly when its pitch maps to a semitone index in
[0,127] and its time and duration tokens parse. -/
theorem validateNote_eq_none_iff (e : NoteEvent) :
    validateNote e = none ↔
      ((∃ m, parseNoteMidi e.note = some m ∧ 0 ≤ m ∧ m ≤ 127) ∧
       (parsePosition e.time).isSome = true ∧
       (parseDurationTok e.duration).isSome = true) := by
  unfold validateNote
  cases hm : parseNoteMidi e.note with
  | none => simp
  | some m =>
    dsimp only
    split_ifs with hr
    · refine iff_of_false (by simp) ?_
      rintro ⟨⟨m2, hm2, h0, h127⟩, -, -⟩
      injection hm2 with hmm
      subst hmm
      rcases hr with hlt | hgt <;> omega
    · push_neg at hr
      cases ht : parsePosition e.time with
      | none => simp
      | some pos =>
        dsimp only
        cases hd : parseDurationTok e.duration with
        | none => simp
        | some d =>
          exact iff_of_true rfl ⟨⟨m, rfl, hr.1, hr.2⟩, rfl, rfl⟩

/-- C5: a Composition validates exactly when its tempo is positive, every
pitch of every note of every track maps into [0,127], and every startTime and
duration token parses; a Composition that fails validation is rejected with
the engine state returned exactly unchanged (all-or-nothing, nothing
scheduled), and a valid one is loaded whole. -/
theorem load_validates_atomically (e : EngineState) (c : Composition) :
    (validateComposition c = none ↔
      (0 < c.bpm ∧ ∀ t ∈ c.tracks, ∀ n ∈ t.notes,
        (∃ m, parseNoteMidi n.note = some m ∧ 0 ≤ m ∧ m ≤ 127) ∧
        (parsePosition n.time).isSome = true ∧
        (parseDurationTok n.duration).isSome = true)) ∧
    (∀ err, validateComposition c = some err →
      loadEngine e c = (e, some err)) ∧
    (validateComposition c = none →
      loadEngine e c =
        ({ transport := .stopped, loaded := some c, scheduled := [],
           voices := 0 }, none)) := by
  refine ⟨?_, fun err herr => ?_, fun hok => ?_⟩
  · unfold validateComposition
    split_ifs with hbpm
    · simp only [reduceCtorEq, false_iff, not_and]
      intro hpos
      exact absurd hpos (not_lt.mpr hbpm)
    · rw [findSome?_eq_none_iff]
      constructor
      · intro hall
        refine ⟨not_le.mp hbpm, fun t ht n hn => ?_⟩
        exact (validateNote_eq_none_iff n).mp
          (hall n (List.mem_flatMap.mpr ⟨t, ht, hn⟩))
      · intro hall n hn
        obtain ⟨t, ht, hnt⟩ := List.mem_flatMap.mp hn
        exact (validateNote_eq_none_iff n).mpr (hall.2 t ht n hnt)
  · unfold loadEngine
    rw [herr]
  · unfold loadEngine
    rw [hok]

/-- C5 witness: the sample composition validates and loads whole into the
empty engine. -/
theorem load_validates_atomically_witness :
    validateComposition sampleComposition = none ∧
    loadEngine emptyEngine sampleComposition =
      ({ transport := .stopped, loaded := some sampleComposition,
         scheduled := [], voices := 0 }, none) :=
  ⟨by decide,
   (load_validates_atomically emptyEngine sampleComposition).2.2 (by decide)⟩

/-! ## Analyser (modelled from the spec, section 4.3) -/

/-- AudioAnalysis from src/types.ts: a waveform sample window and a frequency
magnitude spectrum. -/
structure AudioAnalysis where
  waveform : List ℚ
  frequency : List ℕ
deriving Repr, DecidableEq

/-- Modelled from the spec: Analyser state — the raw time-domain window and
raw magnitude bins of whatever signal VoiceBank currently produces, or none
when nothing is playing. -/
structure AnalyserState where
  signal : Option (List ℚ × List ℕ)
deriving Repr, DecidableEq

/-- The fixed transform size of spec section 4.3. -/
def fftSize : ℕ := 1024

/-- Clamp a rational into [lo, hi]. -/
def clampQ (lo hi x : ℚ) : ℚ := max lo (min hi x)

/-- Pad or cut a list to exactly n elements. -/
def fitTo {α : Type} (n : ℕ) (pad : α) (l : List α) : List α :=
  l.take n ++ List.replicate (n - l.length) pad

/-- Modelled from the spec: Analyser.snapshot returns the most recent
fixed-size view — when nothing is playing it is the all-silent fixed-size
buffer, never null and never variable-length; waveform samples are real
values in [-1,1] and magnitude bins lie in [0,255]. -/
def snapshot (a : AnalyserState) : AudioAnalysis :=
  match a.signal with
  | none =>
    { waveform := List.replicate fftSize 0,
      frequency := List.replicate fftSize 0 }
  | some (w, f) =>
    { waveform := fitTo fftSize 0 (w.map (clampQ (-1) 1)),
      frequency := fitTo fftSize 0 (f.map (min 255)) }

/-- fitTo always yields exactly n elements. -/
theorem fitTo_length {α : Type} (n : ℕ) (pad : α) (l : List α) :
    (fitTo n pad l).length = n := by
  simp only [fitTo, List.length_append, List.length_take,
    List.length_replicate]
  omega

/-- Every element of fitTo comes from the list or is the pad. -/
theorem mem_fitTo {α : Type} {n : ℕ} {pad : α} {l : List α} {x : α}
    (h : x ∈ fitTo n pad l) : x ∈ l ∨ x = pad := by
  rcases List.mem_append.mp h with h1 | h2
  · exact Or.inl (List.take_subset n l h1)
  · exact Or.inr (List.eq_of_mem_replicate h2)

/-! ## C6 theorem -/

/-- C6: every snapshot — including with nothing playing — has waveform and
spectrum of the fixed length, with every waveform sample in [-1,1] and every
magnitude bin in [0,255]; when nothing is playing both buffers are
all-silent. -/
theorem snapshot_fixed_contract (a : AnalyserState) :
    (snapshot a).waveform.length = fftSize ∧
    (snapshot a).frequency.length = fftSize ∧
    (∀ x ∈ (snapshot a).waveform, -1 ≤ x ∧ x ≤ 1) ∧
    (∀ b ∈ (snapshot a).frequency, b ≤ 255) ∧
    (a.signal = none →
      (snapshot a).waveform = List.replicate fftSize 0 ∧
      (snapshot a).frequency = List.replicate fftSize 0) := by
  cases hs : a.signal with
  | none =>
    refine ⟨by simp [snapshot, hs], by simp [snapshot, hs], ?_, ?_,
            fun _ => by simp [snapshot, hs]⟩
    · intro x hx
      simp only [snapshot, hs] at hx
      rw [List.eq_of_mem_replicate hx]
      norm_num
    · intro b hb
      simp only [snapshot, hs] at hb
      rw [List.eq_of_mem_replicate hb]
      norm_num
  | some wf =>
    obtain ⟨w, f⟩ := wf
    refine ⟨?_, ?_, ?_, ?_, fun habs => Option.noConfusion habs⟩
    · simp [snapshot, hs, fitTo_length]
    · simp [snapshot, hs, fitTo_length]
    · intro x hx
      simp only [snapshot, hs] at hx
      rcases mem_fitTo hx with hx1 | hx2
      · obtain ⟨y, _, hy⟩ := List.mem_map.mp hx1
        rw [← hy]
        unfold clampQ
        constructor
        · exact le_max_left _ _
        · exact max_le (by norm_num) (min_le_left _ _)
      · rw [hx2]
        norm_num
    · intro b hb
      simp only [snapshot, hs] at hb
      rcases mem_fitTo hb with hb1 | hb2
      · obtain ⟨y, _, hy⟩ := List.mem_map.mp hb1
        rw [← hy]
        exact min_le_left _ _
      · rw [hb2]
        norm_num

/-- C6 witness: with nothing playing the snapshot is the fixed-size
all-silent pair of buffers. -/
theorem snapshot_fixed_contract_witness :
    (snapshot { signal := none }).waveform = List.replicate fftSize 0 ∧
    (snapshot { signal := none }).frequency = List.replicate fftSize 0 :=
  (snapshot_fixed_contract { signal := none }).2.2.2.2 rfl

/-! ## WavEncoder (modelled from the spec, section 4.6) -/

/-- Two little-endian bytes of a 16-bit word. -/
def le16 (n : ℕ) : List ℕ := [n % 256, n / 256 % 256]

/-- Four little-endian bytes of a 32-bit word. -/
def le32 (n : ℕ) : List ℕ :=
  [n % 256, n / 256 % 256, n / 65536 % 256, n / 16777216 % 256]

/-- ASCII bytes of a tag string. -/
def asciiBytes (s : String) : List ℕ := s.data.map Char.toNat

/-- Modelled from the spec: the canonical minimal 44-byte RIFF/WAVE header
declaring PCM format, channel count, sample rate, byte rate, block alignment
and 16-bit depth, followed by the data chunk header. -/
def wavHeader (sampleRate channels dataLen : ℕ) : List ℕ :=
  asciiBytes "RIFF" ++ le32 (36 + dataLen) ++ asciiBytes "WAVE" ++
  asciiBytes "fmt " ++ le32 16 ++ le16 1 ++ le16 channels ++
  le32 sampleRate ++ le32 (sampleRate * channels * 2) ++
  le16 (channels * 2) ++ le16 16 ++ asciiBytes "data" ++ le32 dataLen

/-- Modelled from the spec: a sample is quantized as round(sample*32767)
clamped to the signed 16-bit range. -/
def quantize16 (x : ℚ) : ℤ := max (-32768) (min 32767 (round (x * 32767)))

/-- The two little-endian bytes of one quantized sample, two's complement. -/
def sampleBytes (x : ℚ) : List ℕ := le16 ((quantize16 x) % 65536).toNat

/-- Modelled from the spec: WavEncoder output — the 44-byte canonical header
followed by every (already channel-interleaved) sample as two bytes. -/
def encodeWav (sampleRate channels : ℕ) (buffer : List ℚ) : List ℕ :=
  wavHeader sampleRate channels (buffer.length * 2) ++
    buffer.flatMap sampleBytes

/-- The header is exactly 44 bytes for any parameters. -/
theorem wavHeader_length (sr ch dl : ℕ) : (wavHeader sr ch dl).length = 44 :=
  rfl

/-- The data section is exactly two bytes per buffer entry. -/
theorem flatMap_sampleBytes_length (l : List ℚ) :
    (l.flatMap sampleBytes).length = 2 * l.length := by
  induction l with
  | nil => rfl
  | cons x xs ih =>
    simp only [List.flatMap_cons, List.length_append, ih, List.length_cons]
    simp [sampleBytes, le16]
    ring

/-! ## C7 theorem -/

/-- C7: for a buffer of S samples over C channels (S*C interleaved entries),
the encoded WAV byte stream has length exactly 44 + S*C*2. -/
theorem wav_byte_length (sr C S : ℕ) (buffer : List ℚ)
    (h : buffer.length = S * C) :
    (encodeWav sr C buffer).length = 44 + S * C * 2 := by
  unfold encodeWav
  rw [List.length_append, wavHeader_length, flatMap_sampleBytes_length, h]
  ring

/-- C7 witness: three mono samples encode to exactly 50 bytes. -/
theorem wav_byte_length_witness :
    ([(0 : ℚ), 1/2, -1].length = 3 * 1) ∧
    (encodeWav 8000 1 [0, 1/2, -1]).length = 44 + 3 * 1 * 2 :=
  ⟨rfl, wav_byte_length 8000 1 3 [0, 1/2, -1] rfl⟩

end Sonicatari
